import Mathlib

/-!
Verification development for the per-entity trading decision engine of the
`trade_analysis` repository.

The engine described by the specification is the modular package
`src/trading/` (`state.py`, `core.py`, `rules.py`, `utils.py`); the legacy
single-file simulator `src/trade_simulator.py` is embedded separately where a
property concerns it.  Modelling conventions:

* Python `float` prices, amounts and offsets are modelled as exact rationals
  (`ℚ`).  The special floating-point values `inf`/`nan` and literals using
  digit-group underscores accepted by Python's `float()` are outside the model.
* `datetime` values (`datetime.utcnow()`, ISO timestamp strings used as
  `ts`/`trade_id`) are modelled as a rational number of seconds; elapsed time
  `(a - b).total_seconds()` becomes plain subtraction.
* The persistence callback (`on_trade_callback`) is a function
  `Trade → Except String Unit`; `Except.error` models the callback raising an
  exception, which the source catches and ignores.
* Fallible parsing returns `Option`.
-/

set_option linter.unusedVariables false

/-! ## Price parsing — src/trading/utils.py (identical code appears as
`TradeSimulator._parse_price` in src/trade_simulator.py) -/

/-- Python `str.lower()`, as a structural character map (equivalent to
`String.toLower`, which is defined by well-founded recursion and therefore
not kernel-computable). -/
def pyLower (s : String) : String :=
  String.mk (s.data.map Char.toLower)

/-- Python `str.upper()`. -/
def pyUpper (s : String) : String :=
  String.mk (s.data.map Char.toUpper)

/-- Python `str.strip()`: drop leading and trailing whitespace. -/
def pyStrip (s : String) : String :=
  String.mk (((s.data.dropWhile Char.isWhitespace).reverse.dropWhile
    Char.isWhitespace).reverse)

/-- The cleaning step of `parse_price`: Python
`str(price_str).strip().replace("$", "").replace(",", "").replace(" ", "")`. -/
def stripPriceChars (s : String) : String :=
  String.mk ((pyStrip s).data.filter (fun c => !(c == '$' || c == ',' || c == ' ')))

def digitsToNat (cs : List Char) : Nat :=
  cs.foldl (fun n c => 10 * n + (c.toNat - 48)) 0

def allDigits (cs : List Char) : Bool :=
  cs.all Char.isDigit

/-- Model of Python `float(s)` on decimal literals: optional sign, integer and
fractional digits around an optional dot (at least one digit overall), and an
optional signed exponent introduced by `e`/`E`.  `inf`, `nan` and underscore
separators are outside the model (they cannot be represented in `ℚ`). -/
def floatOfDecimal (s : String) : Option ℚ :=
  let cs := s.data
  let signed : Bool × List Char :=
    match cs with
    | '-' :: rest => (true, rest)
    | '+' :: rest => (false, rest)
    | _ => (false, cs)
  let neg := signed.1
  let body := signed.2
  let mant := body.takeWhile (fun c => !(c == 'e' || c == 'E'))
  let expPart := body.dropWhile (fun c => !(c == 'e' || c == 'E'))
  let expVal : Option Int :=
    match expPart with
    | [] => some 0
    | _ :: etail =>
      let esigned : Bool × List Char :=
        match etail with
        | '-' :: r => (true, r)
        | '+' :: r => (false, r)
        | _ => (false, etail)
      if esigned.2 ≠ [] ∧ allDigits esigned.2 then
        some (if esigned.1 then -(digitsToNat esigned.2 : Int) else (digitsToNat esigned.2 : Int))
      else none
  match expVal with
  | none => none
  | some e =>
    let ip := mant.takeWhile (fun c => !(c == '.'))
    let dotFrac := mant.dropWhile (fun c => !(c == '.'))
    let fp : Option (List Char) :=
      match dotFrac with
      | [] => some []
      | '.' :: r => if r.contains '.' then none else some r
      | _ => none
    match fp with
    | none => none
    | some fp =>
      if allDigits ip ∧ allDigits fp ∧ (ip ≠ [] ∨ fp ≠ []) then
        let m : ℚ := (digitsToNat ip : ℚ) + (digitsToNat fp : ℚ) / (10 : ℚ) ^ fp.length
        let v : ℚ := m * (10 : ℚ) ^ e
        some (if neg then -v else v)
      else none

/-- `parse_price` (src/trading/utils.py lines 8–16): `None` and the empty
string are falsy (`if not price_str: return None`); otherwise clean the string
and attempt `float()`, returning `None` on `ValueError`. -/
def parse_price (price_str : Option String) : Option ℚ :=
  match price_str with
  | none => none
  | some s => if s = "" then none else floatOfDecimal (stripPriceChars s)

/-- `normalize_ticker` (src/trading/utils.py lines 19–24):
`str(ticker or '').strip().upper()`. -/
def normalize_ticker (ticker : String) : String :=
  pyUpper (pyStrip ticker)

/-! ## Data model — src/trading/state.py -/

inductive Dir where
  | buy
  | sell
deriving DecidableEq, Repr

/-- An open position: the dict `{"entry", "ticker", "ts", "trade_id"}` built by
`TradingCore.buy`.  `trade_id` is an `Option` because the source reads it with
`pos.get('trade_id')`, tolerating dict-built positions lacking the key. -/
structure Pos where
  entry : ℚ
  ticker : String
  ts : ℚ
  trade_id : Option ℚ
deriving DecidableEq, Repr

/-- A trade record as built by `TradingCore._log_trade`. -/
structure Trade where
  ticker : String
  bot_id : Option String
  bot_name : Option String
  direction : Dir
  price : ℚ
  profit : Option ℚ
  ts : ℚ
  trade_id : Option ℚ
  win_reason : Option String
deriving DecidableEq, Repr

/-- `TickerState` (src/trading/state.py lines 9–50), with every field at its
constructor default.  `rule9_flips` is a list of free-form dicts in the source
that no rule ever reads or writes; it is modelled as an opaque counter-less
list of trade records. -/
structure TickerState where
  ticker : Option String := none
  bot_id : Option String := none
  bot_name : Option String := none
  position : Option Pos := none
  first_cycle_done : Bool := false
  waiting_for_second_down : Bool := false
  last_direction : Option Dir := none
  trade_history : List Trade := []
  last_price : Option ℚ := none
  peak_price : Option ℚ := none
  drop_count : Int := 0
  rule5_down_start : Option ℚ := none
  rule5_ready_for_reversal : Bool := false
  rule5_reversal_active : Bool := false
  rule5_reversal_price : Option ℚ := none
  rule5_scalp_active : Bool := false
  rule6_down_start : Option ℚ := none
  rule6_ready_for_buy : Bool := false
  rule6_active : Bool := false
  rule7_up_start : Option ℚ := none
  rule7_active : Bool := false
  rule7_ready_for_buy : Bool := false
  rule8_watch_price : Option ℚ := none
  rule9_flips : List Trade := []
  rule9_last_sell_time : Option ℚ := none
deriving DecidableEq, Repr

/-! ## Trading core — src/trading/core.py

`TradingCore` holds the global ledger `trade_history` and operates on one
`TickerState` per call; the pair of the state for the key under consideration
and the global ledger is bundled as `Core`. -/

structure Core where
  state : TickerState
  trade_history : List Trade
deriving DecidableEq, Repr

def Core.init : Core :=
  { state := {}, trade_history := [] }

/-- A persistence callback that always succeeds. -/
def okCb : Trade → Except String Unit :=
  fun _ => Except.ok ()

/-- Python `state.ticker or key`: `None` and the empty string fall back. -/
def orKey (t : Option String) (key : String) : String :=
  match t with
  | some s => if s = "" then key else s
  | none => key

/-- The record built inside `TradingCore._log_trade` (core.py lines 72–84). -/
def mkTrade (key : String) (st : TickerState) (direction : Dir) (price : ℚ)
    (profit : Option ℚ) (win_reason : Option String) (trade_id : Option ℚ)
    (now : ℚ) : Trade :=
  { ticker := orKey st.ticker key
    bot_id := st.bot_id
    bot_name := st.bot_name
    direction := direction
    price := price
    profit := profit
    ts := now
    trade_id := trade_id
    win_reason := win_reason }

/-- `TradingCore._log_trade` (core.py lines 68–93): append the record to the
per-key history and the global ledger, then invoke the callback inside
`try: ... except Exception: pass` — its outcome is discarded either way. -/
def log_trade (cb : Trade → Except String Unit) (key : String) (c : Core)
    (direction : Dir) (price : ℚ) (profit : Option ℚ)
    (win_reason : Option String) (trade_id : Option ℚ) (now : ℚ) : Core :=
  let trade := mkTrade key c.state direction price profit win_reason trade_id now
  let c' : Core :=
    { state := { c.state with trade_history := c.state.trade_history ++ [trade] }
      trade_history := c.trade_history ++ [trade] }
  match cb trade with
  | Except.ok _ => c'
  | Except.error _ => c'

/-- `TradingCore.buy` (core.py lines 19–40).  Note that it does NOT check for
an existing position: it unconditionally overwrites `state.position`. -/
def buy (cb : Trade → Except String Unit) (key : String) (price : ℚ) (c : Core)
    (now : ℚ) : Core :=
  if key = "" then c
  else
    let ts := now
    let trade_id := ts
    let st :=
      { c.state with
        position := some { entry := price, ticker := orKey c.state.ticker key,
                           ts := ts, trade_id := some trade_id }
        last_direction := some Dir.buy
        last_price := some price
        peak_price := some price
        drop_count := 0 }
    log_trade cb key { c with state := st } Dir.buy price none none (some trade_id) now

/-- `TradingCore.sell` (core.py lines 42–66).  A sell with no open position is
a no-op.  `entry` is always present for positions created by `buy`, so the
source's `entry is None` guard has no analogue here; the `trade_id` fallback
`pos.get('trade_id') or ts` is kept. -/
def sell (cb : Trade → Except String Unit) (key : String) (price : ℚ) (c : Core)
    (win_reason : Option String) (now : ℚ) : Core :=
  if key = "" then c
  else
    match c.state.position with
    | none => c
    | some pos =>
      let profit := price - pos.entry
      let trade_id : Option ℚ :=
        match pos.trade_id with
        | some t => some t
        | none => some now
      let st :=
        { c.state with
          position := none
          last_direction := some Dir.sell
          last_price := none
          peak_price := none
          drop_count := 0 }
      log_trade cb key { c with state := st } Dir.sell price (some profit) win_reason trade_id now

/-! ## Rule library — src/trading/rules.py

The rule functions receive `buy_callback`/`sell_callback` closures; the
dispatcher wires them to `TradingCore.buy`/`TradingCore.sell` for the key's
state, which is how they are instantiated here (`buy cb key`/`sell cb key`).
Only the rules a claim refers to are embedded (#1, #3, #5, #7, #9). -/

/-- Python truthiness-based default for an optional int parameter:
`int(x) if x else d` — both `None` and `0` fall back to the default. -/
def pyIntOr (o : Option Int) (d : Int) : Int :=
  match o with
  | none => d
  | some n => if n = 0 then d else n

/-- Python truthiness-based default for an optional float parameter:
`float(x) if x else d`. -/
def pyRatOr (o : Option ℚ) (d : ℚ) : ℚ :=
  match o with
  | none => d
  | some x => if x = 0 then d else x

/-- `maybe_take_profit_sell` (rules.py lines 13–38), Rule #1: sell only when
`current_price >= entry + take_profit_amount` with `take_profit_amount > 0`.
A `None` amount raises `TypeError` inside the `try`, caught → `False`. -/
def maybe_take_profit_sell (cb : Trade → Except String Unit) (key : String)
    (c : Core) (current_price : ℚ) (take_profit_amount : Option ℚ)
    (now : ℚ) : Core × Bool :=
  match c.state.position with
  | none => (c, false)
  | some pos =>
    match take_profit_amount with
    | none => (c, false)
    | some tp =>
      if tp ≤ 0 then (c, false)
      else if current_price ≥ pos.entry + tp then
        (sell cb key current_price c (some "TAKE_PROFIT_RULE_1") now, true)
      else (c, false)

/-- `maybe_consecutive_drops_sell` (rules.py lines 68–104), Rule #3. -/
def maybe_consecutive_drops_sell (cb : Trade → Except String Unit) (key : String)
    (c : Core) (current_price : ℚ) (drop_count_required : Option Int)
    (now : ℚ) : Core × Bool :=
  if c.state.position = none then (c, false)
  else
    let n_required : Int :=
      match drop_count_required with
      | none => 0
      | some n => n
    if n_required ≤ 0 then (c, false)
    else
      match c.state.last_price with
      | none =>
        ({ c with state := { c.state with last_price := some current_price } }, false)
      | some last_price =>
        let dc : Int :=
          if current_price < last_price then c.state.drop_count + 1
          else if current_price > last_price then 0
          else c.state.drop_count
        let c := { c with state := { c.state with drop_count := dc, last_price := some current_price } }
        if c.state.drop_count ≥ n_required then
          let c := sell cb key current_price c (some "CONSECUTIVE_DROPS_RULE_3") now
          ({ c with state := { c.state with drop_count := 0 } }, true)
        else (c, false)

/-- `maybe_rule5_trade` (rules.py lines 107–165), Rule #5: downtrend → reversal
trade → scalp mode.  In scalp mode an up tick while flat buys at
`current_price` and immediately sells at `current_price + scalp_amt`; a non-up
tick clears `scalp_active` and falls through to the downtrend tracking. -/
def maybe_rule5_trade (cb : Trade → Except String Unit) (key : String) (c : Core)
    (trend : String) (current_price : ℚ) (down_minutes : Option Int)
    (reversal_amount scalp_amount : Option ℚ) (now : ℚ) : Core × Bool :=
  let down_m := max (pyIntOr down_minutes 3) 1
  let rev_amt := max (pyRatOr reversal_amount 2) (1/10)
  let scalp_amt := max (pyRatOr scalp_amount (1/4)) (1/100)
  let trend := pyLower trend
  -- Stage 2: in reversal trade — waiting for profit target
  if c.state.rule5_reversal_active then
    match c.state.rule5_reversal_price with
    | some rp =>
      if current_price ≥ rp + rev_amt then
        let c := sell cb key current_price c (some "RULE_5") now
        ({ c with state := { c.state with
            rule5_reversal_active := false
            rule5_reversal_price := none
            rule5_scalp_active := true } }, true)
      else (c, true)
    | none => (c, true)
  else
    -- Stage 3: scalp mode — quick buy+sell on each up tick
    let scalped : Core × Bool :=
      if c.state.rule5_scalp_active then
        if trend ≠ "up" then
          ({ c with state := { c.state with rule5_scalp_active := false } }, false)
        else if c.state.position = none then
          let c := buy cb key current_price c now
          (sell cb key (current_price + scalp_amt) c (some "RULE_5") now, true)
        else (c, true)
      else (c, false)
    if scalped.2 then (scalped.1, true)
    else
      let c := scalped.1
      -- Stage 1: track continuous downtrend duration
      let c :=
        if trend = "down" then
          match c.state.rule5_down_start with
          | none => { c with state := { c.state with rule5_down_start := some now } }
          | some t0 =>
            if (now - t0) / 60 ≥ (down_m : ℚ) then
              { c with state := { c.state with rule5_ready_for_reversal := true } }
            else c
        else if ¬ c.state.rule5_ready_for_reversal then
          { c with state := { c.state with rule5_down_start := none } }
        else c
      -- Trigger: first up tick after long downtrend
      if c.state.rule5_ready_for_reversal ∧ trend = "up" then
        let c := { c with state := { c.state with
            rule5_ready_for_reversal := false
            rule5_down_start := none
            rule5_reversal_price := some current_price
            rule5_reversal_active := true } }
        if c.state.position = none then (buy cb key current_price c now, true)
        else (c, true)
      else (c, false)

/-- `maybe_rule7_trade` (rules.py lines 212–259), Rule #7: buy after the price
has been continuously going up for N seconds — the `up_minutes` setting is
deliberately treated as seconds (source comment: "UI will show 'sec' label").
Any non-up tick resets both the timer and the ready flag. -/
def maybe_rule7_trade (cb : Trade → Except String Unit) (key : String) (c : Core)
    (trend : String) (current_price : ℚ) (up_minutes : Option Int)
    (now : ℚ) : Core × Bool :=
  let up_s := max (pyIntOr up_minutes 30) 1
  let trend := pyLower trend
  if c.state.rule7_active ∧ c.state.position ≠ none then (c, false)
  else if c.state.rule7_active ∧ c.state.position = none then
    ({ c with state := { c.state with
        rule7_active := false
        rule7_up_start := none
        rule7_ready_for_buy := false } }, false)
  else if trend ≠ "up" then
    ({ c with state := { c.state with
        rule7_up_start := none
        rule7_ready_for_buy := false } }, false)
  else
    let c :=
      match c.state.rule7_up_start with
      | none => { c with state := { c.state with rule7_up_start := some now } }
      | some t0 =>
        if now - t0 ≥ (up_s : ℚ) then
          { c with state := { c.state with rule7_ready_for_buy := true } }
        else c
    if c.state.rule7_ready_for_buy ∧ c.state.position = none then
      let c := { c with state := { c.state with
          rule7_ready_for_buy := false
          rule7_up_start := none } }
      let c := buy cb key current_price c now
      ({ c with state := { c.state with rule7_active := true } }, true)
    else (c, true)

/-- `maybe_rule9_trade` (rules.py lines 294–314), Rule #9 cooldown gate:
blocks (returns `True`) exactly while flat within `cooldown_s` seconds of
`rule9_last_sell_time`; never mutates the state.  `amount`/`flips` are unused
by the source body. -/
def maybe_rule9_trade (cb : Trade → Except String Unit) (key : String) (c : Core)
    (trend : String) (current_price : ℚ) (amount : Option ℚ) (flips : Option Int)
    (window_minutes : Option Int) (now : ℚ) : Core × Bool :=
  let cooldown_s := max (pyIntOr window_minutes 15) 1
  if c.state.position = none then
    match c.state.rule9_last_sell_time with
    | some t => if now - t < (cooldown_s : ℚ) then (c, true) else (c, false)
    | none => (c, false)
  else (c, false)

/-! ## Operation sequences over the core — for the pairing and profit
invariants (spec §8).  Any sequence of engine-driven trades on one key is a
sequence of `TradingCore.buy` / `TradingCore.sell` calls; the rules only ever
trade through these two operations. -/

inductive Op where
  | buyOp (price now : ℚ)
  | sellOp (price : ℚ) (win_reason : Option String) (now : ℚ)
deriving DecidableEq, Repr

def stepOp (cb : Trade → Except String Unit) (key : String) (c : Core) : Op → Core
  | Op.buyOp p t => buy cb key p c t
  | Op.sellOp p r t => sell cb key p c r t

def runOps (cb : Trade → Except String Unit) (key : String) (ops : List Op)
    (c : Core) : Core :=
  ops.foldl (stepOp cb key) c

/-- The buy record that opened the currently open position, scanning a
chronological ledger: a buy replaces it, a sell clears it. -/
def nextOpen (r : Trade) (cur : Option Trade) : Option Trade :=
  match r.direction with
  | Dir.buy => some r
  | Dir.sell => none

def openBuy : List Trade → Option Trade → Option Trade
  | [], cur => cur
  | r :: rest, cur => openBuy rest (nextOpen r cur)

/-- One record's contribution to the pairing check: a sell must carry the
`trade_id` of the buy that opened the position it closes. -/
def pairChk (r : Trade) (cur : Option Trade) : Bool :=
  match r.direction with
  | Dir.buy => true
  | Dir.sell =>
    match cur with
    | some b => decide (r.trade_id = b.trade_id)
    | none => false

/-- Every sell in the ledger carries its opening buy's `trade_id`. -/
def pairedLedger : List Trade → Option Trade → Bool
  | [], _ => true
  | r :: rest, cur => pairChk r cur && pairedLedger rest (nextOpen r cur)

/-- One record's contribution to the profit check: buys carry `profit = None`,
a sell carries exactly `sell price − opening buy price`. -/
def profitChk (r : Trade) (cur : Option Trade) : Bool :=
  match r.direction with
  | Dir.buy => decide (r.profit = none)
  | Dir.sell =>
    match cur with
    | some b => decide (r.profit = some (r.price - b.price))
    | none => false

def profitLedger : List Trade → Option Trade → Bool
  | [], _ => true
  | r :: rest, cur => profitChk r cur && profitLedger rest (nextOpen r cur)

/-- Inductive invariant of the core machine: the per-key history mirrors the
global ledger, the ledger passes the pairing and profit checks, and the open
position (when present) is in sync with the most recent buy record. -/
def CoreInv (c : Core) : Prop :=
  c.state.trade_history = c.trade_history ∧
  pairedLedger c.trade_history none = true ∧
  profitLedger c.trade_history none = true ∧
  (match c.state.position with
   | some p => ∃ b tid, openBuy c.trade_history none = some b ∧
       b.direction = Dir.buy ∧ p.trade_id = some tid ∧ b.trade_id = some tid ∧
       b.price = p.entry
   | none => openBuy c.trade_history none = none)

/-! ## Rule #9 dispatcher wiring — modelled from the spec

No module under `src/` calls `maybe_rule9_trade` or ever writes
`rule9_last_sell_time`: `state.py` only declares the field ("cooldown start
timestamp") and serialises it, and the call sites that pass `rule_9_*`
parameters (`ws/broadcaster.py`, `api/routes/history.py`) target an
`on_signal` overload that is not in the repository snapshot. -/

/-- Modelled from the spec: the signal-dispatcher wiring for Rule #9, which is
missing from `src/`.  Per spec §4.4 steps 6–7 the dispatcher consults the rule
and stops when it blocks; otherwise the default steady-state strategy runs
(buy on `up` while flat, sell on `down` while long), and per spec §4.3 Rule #9
("After any sell, records `last_sell_time`") the dispatcher stores the sell
time in `rule9_last_sell_time`.  `maybe_rule9_trade` itself is the source
function from rules.py. -/
def rule9_dispatch (cb : Trade → Except String Unit) (key : String)
    (window_minutes : Option Int) (c : Core) (now : ℚ) (trend : String)
    (price : ℚ) : Core :=
  let gate := maybe_rule9_trade cb key c trend price none none window_minutes now
  if gate.2 then gate.1
  else if trend = "up" ∧ gate.1.state.position = none then
    buy cb key price gate.1 now
  else if trend = "down" ∧ gate.1.state.position ≠ none then
    let c2 := sell cb key price gate.1 none now
    { c2 with state := { c2.state with rule9_last_sell_time := some now } }
  else gate.1

/-- Signals are `(now, trend, price)` triples. -/
def rule9_run (cb : Trade → Except String Unit) (key : String)
    (window_minutes : Option Int) (sigs : List (ℚ × String × ℚ))
    (c : Core) : Core :=
  sigs.foldl (fun c s => rule9_dispatch cb key window_minutes c s.1 s.2.1 s.2.2) c

/-! ## Rule #7 trace semantics — for C3.  A Rule #7 signal is a
`(now, trend, price)` triple processed by `maybe_rule7_trade` alone (the rule
blocks default logic while counting, so a counting streak is exactly a
sequence of such calls). -/

def r7step (cb : Trade → Except String Unit) (key : String) (upm : Option Int)
    (c : Core) (s : ℚ × String × ℚ) : Core :=
  (maybe_rule7_trade cb key c s.2.1 s.2.2 upm s.1).1

def r7run (cb : Trade → Except String Unit) (key : String) (upm : Option Int)
    (sigs : List (ℚ × String × ℚ)) (c : Core) : Core :=
  sigs.foldl (r7step cb key upm) c

/-- The processed trace ends with an uninterrupted block of `up` signals whose
first signal has time `t0`. -/
def UpStreak (sigs : List (ℚ × String × ℚ)) (t0 : ℚ) : Prop :=
  ∃ pre suf, sigs = pre ++ suf ∧ suf ≠ [] ∧
    (∀ x ∈ suf, pyLower x.2.1 = "up") ∧
    suf.head?.map Prod.fst = some t0

/-- The idle Rule #7 state: flat, not active, timer and ready flag cleared. -/
def r7Idle (c : Core) : Prop :=
  c.state.rule7_active = false ∧ c.state.position = none ∧
  c.state.rule7_ready_for_buy = false ∧ c.state.rule7_up_start = none

/-- Invariant of a Rule #7 run started from an idle state: either still
pre-buy (flat, not active, not ready, and a set timer start witnesses an
uninterrupted up streak), or the buy has fired (active and long). -/
def R7Inv (sigs : List (ℚ × String × ℚ)) (c : Core) : Prop :=
  (c.state.rule7_active = false ∧ c.state.position = none ∧
   c.state.rule7_ready_for_buy = false ∧
   (∀ t0, c.state.rule7_up_start = some t0 → UpStreak sigs t0))
  ∨ (c.state.rule7_active = true ∧ ¬ c.state.position = none)

/-! ## Legacy simulator — src/trade_simulator.py

The single-file `TradeSimulator` keeps one free-form dict per ticker plus a
global ledger.  Prices passed between `on_signal` and the rule methods are
already-parsed floats, so the rule methods' defensive re-parse branch for
string inputs (`isinstance(current_price, (int, float))`) has no analogue
here.  `datetime.now()` / `datetime.utcnow()` are supplied by a `Clock`. -/

structure STrade where
  ticker : String
  direction : Dir
  price : ℚ
  profit : Option ℚ
  win_reason : Option String
  ts : ℚ
deriving DecidableEq, Repr

structure SPos where
  entry : ℚ
  ticker : String
  ts : ℚ
deriving DecidableEq, Repr

/-- The per-ticker dict created by `TradeSimulator._ensure_ticker`
(trade_simulator.py lines 50–79), with its defaults. -/
structure SimSt where
  position : Option SPos := none
  first_cycle_done : Bool := false
  waiting_for_second_down : Bool := false
  trade_history : List STrade := []
  last_direction : Option Dir := none
  last_price : Option ℚ := none
  peak_price : Option ℚ := none
  drop_count : Int := 0
  rule5_down_start : Option ℚ := none
  rule5_ready_for_reversal : Bool := false
  rule5_reversal_price : Option ℚ := none
  rule5_reversal_active : Bool := false
  rule5_scalp_active : Bool := false
  rule5_last_trend : Option String := none
  rule6_down_start : Option ℚ := none
  rule6_ready_for_buy : Bool := false
  rule6_active : Bool := false
  rule7_up_start : Option ℚ := none
  rule7_ready_for_buy : Bool := false
  rule7_active : Bool := false
deriving DecidableEq, Repr

structure Sim where
  tickers : List (String × SimSt) := []
  trade_history : List STrade := []
deriving DecidableEq, Repr

/-- `datetime.now()` / `datetime.utcnow()` as observed by one `on_signal`
call: local weekday (Monday = 0), local minutes since midnight, and a UTC
timestamp in seconds for the rule timers and trade `ts` fields. -/
structure Clock where
  weekday : Nat
  minutes : Nat
  utc : ℚ
deriving DecidableEq, Repr

def Sim.getTk (sim : Sim) (t : String) : Option SimSt :=
  (sim.tickers.find? (fun p => p.1 == t)).map (fun p => p.2)

def Sim.setTk (sim : Sim) (t : String) (st : SimSt) : Sim :=
  if (sim.tickers.find? (fun p => p.1 == t)).isSome then
    { sim with tickers := sim.tickers.map (fun p => if p.1 == t then (t, st) else p) }
  else
    { sim with tickers := sim.tickers ++ [(t, st)] }

/-- `TradeSimulator._ensure_ticker`. -/
def ensure_ticker (sim : Sim) (ticker : String) : Sim :=
  let t := normalize_ticker ticker
  if t = "" then sim
  else
    match sim.getTk t with
    | some _ => sim
    | none => sim.setTk t {}

/-- `TradeSimulator._is_trading_hours` (Mon–Fri, 9:30–16:00 local). -/
def sim_is_trading_hours (clk : Clock) : Bool :=
  if clk.weekday > 4 then false
  else decide (9 * 60 + 30 ≤ clk.minutes ∧ clk.minutes ≤ 16 * 60)

/-- `TradeSimulator._log_trade`: append to the global and per-ticker
histories, then call the `on_trade` callback inside `try/except`. -/
def sim_log_trade (cb : STrade → Except String Unit) (sim : Sim)
    (ticker : String) (direction : Dir) (price : ℚ) (profit : Option ℚ)
    (win_reason : Option String) (now : ℚ) : Sim :=
  let e : STrade := { ticker, direction, price, profit, win_reason, ts := now }
  let sim := { sim with trade_history := sim.trade_history ++ [e] }
  let sim :=
    match sim.getTk ticker with
    | some st => sim.setTk ticker { st with trade_history := st.trade_history ++ [e] }
    | none => sim   -- KeyError in the source; every call site ensures the ticker first
  match cb e with
  | Except.ok _ => sim
  | Except.error _ => sim

/-- `TradeSimulator._buy` (lines 212–231).  Like `TradingCore.buy` it has no
flatness check and overwrites any open position. -/
def sim_buy (cb : STrade → Except String Unit) (sim : Sim) (ticker : String)
    (price : ℚ) (now : ℚ) : Sim :=
  let t := normalize_ticker ticker
  if t = "" then sim
  else
    match sim.getTk t with
    | none => sim   -- KeyError in the source; callers ensure the ticker first
    | some st =>
      let st := { st with
        position := some { entry := price, ticker := t, ts := now }
        last_direction := some Dir.buy
        last_price := some price
        peak_price := some price
        drop_count := 0 }
      sim_log_trade cb (sim.setTk t st) t Dir.buy price none none now

/-- `TradeSimulator._sell` (lines 233–256): logs before clearing the
position, resets Rule #7's flag, and resets the Rule #5 state unless the sell
was tagged `RULE_5`. -/
def sim_sell (cb : STrade → Except String Unit) (sim : Sim) (ticker : String)
    (price : ℚ) (win_reason : Option String) (now : ℚ) : Sim :=
  let t := normalize_ticker ticker
  if t = "" then sim
  else
    match sim.getTk t with
    | none => sim   -- KeyError in the source; callers ensure the ticker first
    | some st =>
      match st.position with
      | none => sim
      | some pos =>
        let profit := price - pos.entry
        let sim := sim.setTk t { st with last_direction := some Dir.sell }
        let sim := sim_log_trade cb sim t Dir.sell price (some profit) win_reason now
        match sim.getTk t with
        | none => sim
        | some st2 =>
          let st2 := { st2 with
            position := none
            last_price := none
            peak_price := none
            drop_count := 0
            rule7_active := false }
          let st2 :=
            if win_reason = some "RULE_5" then st2
            else { st2 with
              rule5_reversal_active := false
              rule5_ready_for_reversal := false
              rule5_reversal_price := none
              rule5_scalp_active := false }
          sim.setTk t st2

/-- `TradeSimulator.maybe_stop_loss_sell` (lines 447–491), Rule #2. -/
def sim_maybe_stop_loss_sell (cb : STrade → Except String Unit) (sim : Sim)
    (ticker : String) (current_price : ℚ) (stop_loss_amount : Option ℚ)
    (now : ℚ) : Sim × Bool :=
  let t := normalize_ticker ticker
  if t = "" then (sim, false)
  else
    let sim := ensure_ticker sim t
    let st := (sim.getTk t).getD {}
    match st.position with
    | none => (sim, false)
    | some pos =>
      let sl : ℚ := match stop_loss_amount with | none => 0 | some x => x
      let sl := if sl < 0 then 0 else sl
      if current_price ≤ pos.entry - sl then
        (sim_sell cb sim t current_price (some "STOP_LOSS_RULE_2") now, true)
      else (sim, false)

/-- `TradeSimulator.maybe_consecutive_drops_sell` (lines 496–547), Rule #3.
Unlike the rules.py version, initialising `last_price` does not return early:
the call continues with the (now equal) prices. -/
def sim_maybe_consecutive_drops_sell (cb : STrade → Except String Unit)
    (sim : Sim) (ticker : String) (current_price : ℚ)
    (drop_count_required : Option Int) (now : ℚ) : Sim × Bool :=
  let t := normalize_ticker ticker
  if t = "" then (sim, false)
  else
    let sim := ensure_ticker sim t
    let st := (sim.getTk t).getD {}
    match st.position with
    | none => (sim, false)
    | some _ =>
      let n_required : Int :=
        match drop_count_required with | none => 0 | some n => n
      if n_required ≤ 0 then (sim, false)
      else
        let st := if st.last_price = none
          then { st with last_price := some current_price } else st
        let st :=
          match st.last_price with
          | some lp =>
            let st :=
              if current_price < lp then { st with drop_count := st.drop_count + 1 }
              else if current_price > lp then { st with drop_count := 0 }
              else st
            { st with last_price := some current_price }
          | none => st   -- unreachable: last_price was just initialised
        let sim := sim.setTk t st
        if st.drop_count ≥ n_required then
          (sim_sell cb sim t current_price (some "CONSECUTIVE_DROPS_RULE_3") now, true)
        else (sim, false)

/-- `TradeSimulator.maybe_rule5_trade` (lines 552–636).  Note the legacy scalp
trade buys at `current_price − scalp_amt` and sells at
`current_price + scalp_amt`, and parameters fall back on `None` (not on 0)
and on non-positive values. -/
def sim_maybe_rule5_trade (cb : STrade → Except String Unit) (sim : Sim)
    (ticker : String) (trend : String) (current_price : ℚ)
    (down_minutes : Option Int) (reversal_amount scalp_amount : Option ℚ)
    (now : ℚ) : Sim × Bool :=
  let t := normalize_ticker ticker
  if t = "" then (sim, false)
  else
    let sim := ensure_ticker sim t
    let st := (sim.getTk t).getD {}
    let down_m : Int := match down_minutes with | none => 3 | some n => n
    let down_m := if down_m ≤ 0 then 3 else down_m
    let rev_amt : ℚ := match reversal_amount with | none => 2 | some x => x
    let rev_amt := if rev_amt ≤ 0 then 2 else rev_amt
    let scalp_amt : ℚ := match scalp_amount with | none => 1/4 | some x => x
    let scalp_amt := if scalp_amt ≤ 0 then 1/4 else scalp_amt
    let trend := pyLower trend
    if st.rule5_reversal_active then
      match st.rule5_reversal_price with
      | some rp =>
        if current_price ≥ rp + rev_amt then
          let sim := sim_sell cb sim t current_price (some "RULE_5") now
          let st := (sim.getTk t).getD {}
          (sim.setTk t { st with
            rule5_reversal_active := false
            rule5_reversal_price := none
            rule5_scalp_active := true }, true)
        else (sim, true)
      | none => (sim, true)
    else
      let scalped : Sim × SimSt × Bool :=
        if st.rule5_scalp_active then
          if trend ≠ "up" then
            let st := { st with rule5_scalp_active := false }
            (sim.setTk t st, st, false)
          else if st.position = none then
            let buy_price := current_price - scalp_amt
            let sell_price := current_price + scalp_amt
            let sim := sim_buy cb sim t buy_price now
            let sim := sim_sell cb sim t sell_price (some "RULE_5") now
            (sim, (sim.getTk t).getD {}, true)
          else (sim, st, true)
        else (sim, st, false)
      if scalped.2.2 then (scalped.1, true)
      else
        let sim := scalped.1
        let st := scalped.2.1
        let st :=
          if trend = "down" then
            match st.rule5_down_start with
            | none => { st with rule5_down_start := some now }
            | some t0 =>
              if (now - t0) / 60 ≥ (down_m : ℚ) then
                { st with rule5_ready_for_reversal := true }
              else st
          else if ¬ st.rule5_ready_for_reversal then
            { st with rule5_down_start := none }
          else st
        let sim := sim.setTk t st
        if st.rule5_ready_for_reversal ∧ trend = "up" then
          let st := { st with
            rule5_ready_for_reversal := false
            rule5_down_start := none
            rule5_reversal_price := some current_price
            rule5_reversal_active := true }
          let sim := sim.setTk t st
          if st.position = none then (sim_buy cb sim t current_price now, true)
          else (sim, true)
        else (sim, false)

/-- `TradeSimulator.maybe_rule6_trade` (lines 334–392). -/
def sim_maybe_rule6_trade (cb : STrade → Except String Unit) (sim : Sim)
    (ticker : String) (trend : String) (current_price : ℚ)
    (down_minutes : Option Int) (profit_amount : Option ℚ)
    (now : ℚ) : Sim × Bool :=
  let t := normalize_ticker ticker
  if t = "" then (sim, false)
  else
    let sim := ensure_ticker sim t
    let st := (sim.getTk t).getD {}
    let down_m : Int := match down_minutes with | none => 5 | some n => n
    let down_m := if down_m ≤ 0 then 5 else down_m
    let prof_amt : ℚ := match profit_amount with | none => 2 | some x => x
    let prof_amt := if prof_amt ≤ 0 then 2 else prof_amt
    let trend := pyLower trend
    if st.rule6_active ∧ st.position ≠ none then
      match st.position with
      | some pos =>
        if current_price ≥ pos.entry + prof_amt then
          let sim := sim_sell cb sim t current_price (some "RULE_6") now
          let st := (sim.getTk t).getD {}
          (sim.setTk t { st with rule6_active := false }, true)
        else (sim, true)
      | none => (sim, true)
    else
      let st :=
        if trend = "down" then
          match st.rule6_down_start with
          | none => { st with rule6_down_start := some now }
          | some t0 =>
            if (now - t0) / 60 ≥ (down_m : ℚ) then
              { st with rule6_ready_for_buy := true }
            else st
        else if ¬ st.rule6_ready_for_buy then
          { st with rule6_down_start := none }
        else st
      let sim := sim.setTk t st
      if st.rule6_ready_for_buy ∧ trend = "up" then
        let st := { st with rule6_ready_for_buy := false, rule6_down_start := none }
        let sim := sim.setTk t st
        let sim := if st.position = none then sim_buy cb sim t current_price now else sim
        let st2 := (sim.getTk t).getD {}
        (sim.setTk t { st2 with rule6_active := true }, true)
      else (sim, false)

/-- `TradeSimulator.maybe_rule7_trade` (lines 397–442).  The legacy version
counts MINUTES (`total_seconds() / 60`), resets the timer on a non-up tick
only when the ready flag is unset, and never clears the ready flag there. -/
def sim_maybe_rule7_trade (cb : STrade → Except String Unit) (sim : Sim)
    (ticker : String) (trend : String) (current_price : ℚ)
    (up_minutes : Option Int) (now : ℚ) : Sim × Bool :=
  let t := normalize_ticker ticker
  if t = "" then (sim, false)
  else
    let sim := ensure_ticker sim t
    let st := (sim.getTk t).getD {}
    let up_m : Int := match up_minutes with | none => 3 | some n => n
    let up_m := if up_m ≤ 0 then 3 else up_m
    let trend := pyLower trend
    if st.rule7_active ∧ st.position ≠ none then (sim, false)
    else
      let st :=
        if trend = "up" then
          match st.rule7_up_start with
          | none => { st with rule7_up_start := some now }
          | some t0 =>
            if (now - t0) / 60 ≥ (up_m : ℚ) then
              { st with rule7_ready_for_buy := true }
            else st
        else if ¬ st.rule7_ready_for_buy then
          { st with rule7_up_start := none }
        else st
      let sim := sim.setTk t st
      if st.rule7_ready_for_buy ∧ trend = "up" then
        let st := { st with rule7_ready_for_buy := false, rule7_up_start := none }
        let sim := sim.setTk t st
        let sim := if st.position = none then sim_buy cb sim t current_price now else sim
        let st2 := (sim.getTk t).getD {}
        (sim.setTk t { st2 with rule7_active := true }, true)
      else (sim, false)

/-- The keyword parameters of `TradeSimulator.on_signal` (line 99), with the
source's defaults. -/
structure OnSignalArgs where
  trend : String
  price_str : Option String
  ticker : String
  auto : Bool := true
  rule_2_enabled : Bool := false
  stop_loss_amount : Option ℚ := none
  rule_3_enabled : Bool := false
  rule_3_drop_count : Option Int := none
  rule_4_enabled : Bool := true
  rule_5_enabled : Bool := false
  rule_5_down_minutes : Option Int := none
  rule_5_reversal_amount : Option ℚ := none
  rule_5_scalp_amount : Option ℚ := none
  rule_6_enabled : Bool := false
  rule_6_down_minutes : Option Int := none
  rule_6_profit_amount : Option ℚ := none
  rule_7_enabled : Bool := false
  rule_7_up_minutes : Option Int := none
deriving Repr

/-- The NORMAL MODE tail of `on_signal` (lines 177–187): buy on `up` while
flat, sell on `down` while long (tagging `RULE_7` if its flag is active). -/
def sim_normal_mode (cb : STrade → Except String Unit) (sim : Sim)
    (ticker : String) (trend : String) (price : ℚ) (now : ℚ) : Sim :=
  let st := (sim.getTk ticker).getD {}
  if trend = "up" ∧ st.position = none then
    sim_buy cb sim ticker price now
  else if trend = "down" ∧ st.position ≠ none then
    let win_reason := if st.rule7_active then some "RULE_7" else none
    let sim := sim_sell cb sim ticker price win_reason now
    let st := (sim.getTk ticker).getD {}
    sim.setTk ticker { st with rule7_active := false }
  else sim

/-- `TradeSimulator.on_signal` (lines 99–188), as a state transformer: the
Python method returns `self.summary()`, a pure function of the post-state, so
returning the post-state is equivalent.  The first-cycle branches fall
through to normal mode when none of them matches. -/
def on_signal (cb : STrade → Except String Unit) (clk : Clock)
    (a : OnSignalArgs) (sim : Sim) : Sim :=
  let ticker := normalize_ticker a.ticker
  match parse_price a.price_str with
  | none => sim
  | some price =>
    if ticker = "" then sim
    else
      let trend := pyLower a.trend
      let sim := ensure_ticker sim ticker
      let r2 : Sim × Bool :=
        if a.rule_2_enabled then
          sim_maybe_stop_loss_sell cb sim ticker price a.stop_loss_amount clk.utc
        else (sim, false)
      if r2.2 then r2.1
      else
        let sim := r2.1
        let r3 : Sim × Bool :=
          if a.rule_3_enabled then
            sim_maybe_consecutive_drops_sell cb sim ticker price
              a.rule_3_drop_count clk.utc
          else (sim, false)
        if r3.2 then r3.1
        else
          let sim := r3.1
          if a.auto then
            if a.rule_4_enabled ∧ ¬ sim_is_trading_hours clk then sim
            else
              let r5 : Sim × Bool :=
                if a.rule_5_enabled then
                  sim_maybe_rule5_trade cb sim ticker trend price
                    a.rule_5_down_minutes a.rule_5_reversal_amount
                    a.rule_5_scalp_amount clk.utc
                else (sim, false)
              if r5.2 then r5.1
              else
                let sim := r5.1
                let r6 : Sim × Bool :=
                  if a.rule_6_enabled then
                    sim_maybe_rule6_trade cb sim ticker trend price
                      a.rule_6_down_minutes a.rule_6_profit_amount clk.utc
                  else (sim, false)
                if r6.2 then r6.1
                else
                  let sim := r6.1
                  let r7 : Sim × Bool :=
                    if a.rule_7_enabled then
                      sim_maybe_rule7_trade cb sim ticker trend price
                        a.rule_7_up_minutes clk.utc
                    else (sim, false)
                  if r7.2 then r7.1
                  else
                    let sim := r7.1
                    let st := (sim.getTk ticker).getD {}
                    if ¬ st.first_cycle_done then
                      if trend = "down" ∧ st.position = none then
                        let sim := sim_buy cb sim ticker price clk.utc
                        let st := (sim.getTk ticker).getD {}
                        sim.setTk ticker { st with waiting_for_second_down := true }
                      else if trend = "up" ∧ st.waiting_for_second_down then sim
                      else if trend = "down" ∧ st.waiting_for_second_down then
                        let sim := sim_sell cb sim ticker price none clk.utc
                        let st := (sim.getTk ticker).getD {}
                        sim.setTk ticker { st with
                          first_cycle_done := true
                          waiting_for_second_down := false }
                      else if trend = "up" ∧ st.position = none then
                        let sim := sim.setTk ticker { st with first_cycle_done := true }
                        sim_buy cb sim ticker price clk.utc
                      else sim_normal_mode cb sim ticker trend price clk.utc
                    else sim_normal_mode cb sim ticker trend price clk.utc
          else sim

/-! ## Theorems -/

theorem openBuy_append (l l2 : List Trade) (cur : Option Trade) :
    openBuy (l ++ l2) cur = openBuy l2 (openBuy l cur) := by
  induction l generalizing cur with
  | nil => rfl
  | cons r rest ih =>
    rw [List.cons_append]
    exact ih (nextOpen r cur)

theorem pairedLedger_append (l l2 : List Trade) (cur : Option Trade) :
    pairedLedger (l ++ l2) cur
      = (pairedLedger l cur && pairedLedger l2 (openBuy l cur)) := by
  induction l generalizing cur with
  | nil => simp [pairedLedger, openBuy]
  | cons r rest ih =>
    rw [List.cons_append]
    show (pairChk r cur && pairedLedger (rest ++ l2) (nextOpen r cur)) = _
    rw [ih (nextOpen r cur), ← Bool.and_assoc]
    rfl

theorem profitLedger_append (l l2 : List Trade) (cur : Option Trade) :
    profitLedger (l ++ l2) cur
      = (profitLedger l cur && profitLedger l2 (openBuy l cur)) := by
  induction l generalizing cur with
  | nil => simp [profitLedger, openBuy]
  | cons r rest ih =>
    rw [List.cons_append]
    show (profitChk r cur && profitLedger (rest ++ l2) (nextOpen r cur)) = _
    rw [ih (nextOpen r cur), ← Bool.and_assoc]
    rfl

theorem coreInv_init : CoreInv Core.init :=
  ⟨rfl, rfl, rfl, rfl⟩

/-- `log_trade` returns the appended core regardless of the callback's
outcome. -/
theorem log_trade_result (cb : Trade → Except String Unit) (key : String)
    (c : Core) (d : Dir) (p : ℚ) (pr : Option ℚ) (w : Option String)
    (tid : Option ℚ) (now : ℚ) :
    log_trade cb key c d p pr w tid now
      = { state := { c.state with trade_history :=
            c.state.trade_history ++ [mkTrade key c.state d p pr w tid now] }
          trade_history :=
            c.trade_history ++ [mkTrade key c.state d p pr w tid now] } := by
  cases h : cb (mkTrade key c.state d p pr w tid now) with
  | ok v => simp [log_trade, h]
  | error e => simp [log_trade, h]

theorem stepOp_inv (cb : Trade → Except String Unit) (key : String) (c : Core)
    (op : Op) (h : CoreInv c) : CoreInv (stepOp cb key c op) := by
  obtain ⟨hmirror, hpair, hprofit, hpos⟩ := h
  cases op with
  | buyOp p t =>
    simp only [stepOp, buy]
    by_cases hk : key = ""
    · simp only [if_pos hk]
      exact ⟨hmirror, hpair, hprofit, hpos⟩
    · simp only [if_neg hk, log_trade_result]
      refine ⟨by simp [hmirror], ?_, ?_, ?_⟩
      · simp [pairedLedger_append, hpair, pairedLedger, pairChk, mkTrade]
      · simp [profitLedger_append, hprofit, profitLedger, profitChk, mkTrade]
      · simp only [openBuy_append, openBuy, nextOpen, mkTrade]
        exact ⟨_, t, rfl, rfl, rfl, rfl, rfl⟩
  | sellOp p r t =>
    simp only [stepOp, sell]
    by_cases hk : key = ""
    · simp only [if_pos hk]
      exact ⟨hmirror, hpair, hprofit, hpos⟩
    · simp only [if_neg hk]
      cases hp : c.state.position with
      | none =>
        rw [hp] at hpos
        refine ⟨hmirror, hpair, hprofit, ?_⟩
        simp only [hp]
        exact hpos
      | some pos =>
        rw [hp] at hpos
        obtain ⟨b, tid, hob, hbdir, hptid, hbtid, hbprice⟩ := hpos
        simp only [log_trade_result]
        refine ⟨by simp [hmirror], ?_, ?_, ?_⟩
        · rw [pairedLedger_append, hpair]
          simp [pairedLedger, pairChk, mkTrade, hob, hptid, hbtid]
        · rw [profitLedger_append, hprofit]
          simp [profitLedger, profitChk, mkTrade, hob, hbprice]
        · simp [openBuy_append, openBuy, nextOpen, mkTrade]

theorem runOps_inv (cb : Trade → Except String Unit) (key : String)
    (ops : List Op) (c : Core) (h : CoreInv c) :
    CoreInv (runOps cb key ops c) := by
  induction ops generalizing c with
  | nil => exact h
  | cons op rest ih => exact ih _ (stepOp_inv cb key c op h)

/-- C1: for every sequence of operations delivered to one key, every sell
trade record appended to the ledger carries a `trade_id` equal to the
`trade_id` of the buy record that opened the position this sell closes (the
sell inherits the `trade_id` stored in the open position at buy time), and the
per-key history mirrors the global ledger.  `pairedLedger` walks the ledger
chronologically, tracking the buy that opened the currently open position, and
checks each sell record's `trade_id` against it. -/
theorem sell_inherits_buy_trade_id (cb : Trade → Except String Unit)
    (key : String) (ops : List Op) :
    pairedLedger (runOps cb key ops Core.init).trade_history none = true ∧
    (runOps cb key ops Core.init).state.trade_history
      = (runOps cb key ops Core.init).trade_history :=
  have h := runOps_inv cb key ops Core.init coreInv_init
  ⟨h.2.1, h.1⟩

/-- C6: for every paired buy and sell on one key, the profit recorded on the
sell trade record equals exactly `sell price − buy price`, and buy records
carry `profit = None` (`profitLedger` checks both, pairing each sell with the
buy that opened the position it closes). -/
theorem sell_profit_is_sell_minus_buy (cb : Trade → Except String Unit)
    (key : String) (ops : List Op) :
    profitLedger (runOps cb key ops Core.init).trade_history none = true :=
  (runOps_inv cb key ops Core.init coreInv_init).2.2.1

/-- C2: `maybe_rule9_trade` returns `True` exactly while the key is flat and
the current time is within the cooldown of `rule9_last_sell_time` (and never
mutates the state); with `cooldown_seconds = 15`, after a sell at `t = 0` a
buy-triggering signal at `t = 5` opens no position while the same signal at
`t = 16` opens one, and the sell recorded `last_sell_time = 0`. -/
theorem rule9_cooldown_gate :
    (∀ cb key c trend cp amount flips w now,
      ((maybe_rule9_trade cb key c trend cp amount flips w now).2 = true ↔
        (c.state.position = none ∧ ∃ t, c.state.rule9_last_sell_time = some t ∧
          now - t < ((max (pyIntOr w 15) 1 : Int) : ℚ))) ∧
      (maybe_rule9_trade cb key c trend cp amount flips w now).1 = c) ∧
    (rule9_run okCb "T" (some 15)
      [(-20, "up", 100), (0, "down", 99), (5, "up", 101)]
      Core.init).state.position = none ∧
    (rule9_run okCb "T" (some 15)
      [(-20, "up", 100), (0, "down", 99), (5, "up", 101)]
      Core.init).state.rule9_last_sell_time = some 0 ∧
    ((rule9_run okCb "T" (some 15)
      [(-20, "up", 100), (0, "down", 99), (5, "up", 101), (16, "up", 101)]
      Core.init).state.position).isSome = true := by
  have hmax : (max (15 : Int) 1 : Int) = 15 := rfl
  have h5 : ((5 : ℚ) < 15) := by norm_num
  have h16 : ¬ ((16 : ℚ) < 15) := by norm_num
  refine ⟨?_, ?_, ?_, ?_⟩
  · intro cb key c trend cp amount flips w now
    constructor
    · cases hp : c.state.position with
      | some p =>
        have hres : maybe_rule9_trade cb key c trend cp amount flips w now = (c, false) := by
          unfold maybe_rule9_trade
          rw [hp]
          simp
        rw [hres]
        simp [hp]
      | none =>
        cases ht : c.state.rule9_last_sell_time with
        | none =>
          have hres : maybe_rule9_trade cb key c trend cp amount flips w now = (c, false) := by
            unfold maybe_rule9_trade
            rw [hp, ht]
            rfl
          rw [hres]
          simp [ht]
        | some t0 =>
          have hres : maybe_rule9_trade cb key c trend cp amount flips w now
              = (if now - t0 < ((max (pyIntOr w 15) 1 : Int) : ℚ) then (c, true)
                 else (c, false)) := by
            unfold maybe_rule9_trade
            rw [hp, ht]
            rfl
          by_cases hlt : now - t0 < ((max (pyIntOr w 15) 1 : Int) : ℚ)
          · rw [hres, if_pos hlt]
            exact ⟨fun _ => ⟨rfl, t0, rfl, hlt⟩, fun _ => rfl⟩
          · rw [hres, if_neg hlt]
            constructor
            · intro hfalse
              exact absurd hfalse (by simp)
            · rintro ⟨-, t1, ht1, hlt1⟩
              injection ht1 with h1
              rw [← h1] at hlt1
              exact absurd hlt1 hlt
    · show (maybe_rule9_trade cb key c trend cp amount flips w now).1 = c
      unfold maybe_rule9_trade
      dsimp only
      split
      · split
        · split <;> rfl
        · rfl
      · rfl
  · simp [rule9_run, rule9_dispatch, maybe_rule9_trade, buy, sell, log_trade,
      mkTrade, okCb, orKey, pyIntOr, Core.init, hmax, h5, h16]
  · simp [rule9_run, rule9_dispatch, maybe_rule9_trade, buy, sell, log_trade,
      mkTrade, okCb, orKey, pyIntOr, Core.init, hmax, h5, h16]
  · simp [rule9_run, rule9_dispatch, maybe_rule9_trade, buy, sell, log_trade,
      mkTrade, okCb, orKey, pyIntOr, Core.init, hmax, h5, h16]

/-- C8: Rule #1 sells exactly when the key is long, `take_profit_amount` is a
number greater than 0, and `current_price ≥ entry + take_profit_amount`; the
sell appends a record tagged `TAKE_PROFIT_RULE_1`.  Concretely with
`take_profit_amount = 2.0` and a buy at 100, a signal at 101.9 does not sell
(state unchanged) and a signal at exactly 102.0 sells with profit 2.0. -/
theorem rule1_take_profit_exact :
    (∀ cb key c cp tp now,
      ((maybe_take_profit_sell cb key c cp tp now).2 = true ↔
        ∃ pos, c.state.position = some pos ∧
          ∃ t, tp = some t ∧ 0 < t ∧ pos.entry + t ≤ cp)) ∧
    (∀ cb key c cp tp now, key ≠ "" →
      (maybe_take_profit_sell cb key c cp tp now).2 = true →
      ∃ rec pos, c.state.position = some pos ∧
        (maybe_take_profit_sell cb key c cp tp now).1.trade_history
          = c.trade_history ++ [rec] ∧
        rec.direction = Dir.sell ∧ rec.price = cp ∧
        rec.win_reason = some "TAKE_PROFIT_RULE_1" ∧
        rec.profit = some (cp - pos.entry)) ∧
    ((maybe_take_profit_sell okCb "T" (buy okCb "T" 100 Core.init 0)
        (1019/10) (some 2) 1).2 = false ∧
     (maybe_take_profit_sell okCb "T" (buy okCb "T" 100 Core.init 0)
        (1019/10) (some 2) 1).1 = buy okCb "T" 100 Core.init 0 ∧
     (maybe_take_profit_sell okCb "T" (buy okCb "T" 100 Core.init 0)
        102 (some 2) 1).2 = true ∧
     ((maybe_take_profit_sell okCb "T" (buy okCb "T" 100 Core.init 0)
        102 (some 2) 1).1.trade_history.getLast?).map Trade.profit
          = some (some 2) ∧
     ((maybe_take_profit_sell okCb "T" (buy okCb "T" 100 Core.init 0)
        102 (some 2) 1).1.trade_history.getLast?).map Trade.win_reason
          = some (some "TAKE_PROFIT_RULE_1")) := by
  have key1 : ∀ cb key c cp tp now,
      (maybe_take_profit_sell cb key c cp tp now).2 = true ↔
      ∃ pos, c.state.position = some pos ∧
        ∃ t, tp = some t ∧ 0 < t ∧ pos.entry + t ≤ cp := by
    intro cb key c cp tp now
    cases hp : c.state.position with
    | none => simp [maybe_take_profit_sell, hp]
    | some pos =>
      cases tp with
      | none => simp [maybe_take_profit_sell, hp]
      | some t =>
        by_cases h0 : t ≤ 0
        · simp [maybe_take_profit_sell, hp, h0, not_lt.mpr h0]
        · by_cases hcp : cp ≥ pos.entry + t
          · simp [maybe_take_profit_sell, hp, h0, hcp, not_le.mp h0]
          · simp [maybe_take_profit_sell, hp, h0, hcp]
  have hpos1 : (buy okCb "T" 100 Core.init 0).state.position
      = some ⟨100, "T", 0, some 0⟩ := rfl
  refine ⟨key1, ?_, ?_, ?_, ?_, ?_, ?_⟩
  · intro cb key c cp tp now hk hfired
    obtain ⟨pos, hp, t, htp, h0, hcp⟩ := (key1 cb key c cp tp now).mp hfired
    have hres : (maybe_take_profit_sell cb key c cp tp now).1
        = sell cb key cp c (some "TAKE_PROFIT_RULE_1") now := by
      unfold maybe_take_profit_sell
      rw [hp, htp]
      dsimp only
      rw [if_neg (not_le.mpr h0), if_pos (show cp ≥ pos.entry + t from hcp)]
    have hled : (maybe_take_profit_sell cb key c cp tp now).1.trade_history
        = c.trade_history ++ [mkTrade key
            { c.state with
              position := none
              last_direction := some Dir.sell
              last_price := none
              peak_price := none
              drop_count := 0 }
            Dir.sell cp (some (cp - pos.entry)) (some "TAKE_PROFIT_RULE_1")
            (match pos.trade_id with | some t1 => some t1 | none => some now)
            now] := by
      rw [hres]
      unfold sell
      rw [if_neg hk, hp]
      dsimp only
      rw [log_trade_result]
    exact ⟨_, pos, hp, hled, rfl, rfl, rfl, rfl⟩
  · refine Bool.eq_false_iff.mpr ?_
    intro h
    obtain ⟨pos, hpos, t, ht, h0t, hle⟩ := (key1 _ _ _ _ _ _).mp h
    rw [hpos1] at hpos
    injection hpos with hpos'
    injection ht with ht'
    rw [← hpos', ← ht'] at hle
    norm_num at hle
  · unfold maybe_take_profit_sell
    rw [hpos1]
    dsimp only
    rw [if_neg (by norm_num : ¬ ((2:ℚ) ≤ 0)),
        if_neg (by norm_num : ¬ ((1019/10 : ℚ) ≥ 100 + 2))]
  · rw [key1]
    exact ⟨⟨100, "T", 0, some 0⟩, hpos1, 2, rfl, by norm_num, by norm_num⟩
  · have hfire : (maybe_take_profit_sell okCb "T" (buy okCb "T" 100 Core.init 0)
        102 (some 2) 1).1
        = sell okCb "T" 102 (buy okCb "T" 100 Core.init 0)
            (some "TAKE_PROFIT_RULE_1") 1 := by
      unfold maybe_take_profit_sell
      rw [hpos1]
      dsimp only
      rw [if_neg (by norm_num : ¬ ((2:ℚ) ≤ 0)),
          if_pos (by norm_num : (102:ℚ) ≥ 100 + 2)]
    have hledger : (sell okCb "T" 102 (buy okCb "T" 100 Core.init 0)
          (some "TAKE_PROFIT_RULE_1") 1).trade_history
        = (buy okCb "T" 100 Core.init 0).trade_history
          ++ [⟨"T", none, none, Dir.sell, 102, some (102 - 100), 1, some 0,
              some "TAKE_PROFIT_RULE_1"⟩] := by
      unfold sell
      rw [if_neg (by decide : ¬ (("T" : String) = "")), hpos1]
      dsimp only
      rw [log_trade_result]
      rfl
    rw [hfire, hledger, List.getLast?_concat]
    norm_num
  · have hfire : (maybe_take_profit_sell okCb "T" (buy okCb "T" 100 Core.init 0)
        102 (some 2) 1).1
        = sell okCb "T" 102 (buy okCb "T" 100 Core.init 0)
            (some "TAKE_PROFIT_RULE_1") 1 := by
      unfold maybe_take_profit_sell
      rw [hpos1]
      dsimp only
      rw [if_neg (by norm_num : ¬ ((2:ℚ) ≤ 0)),
          if_pos (by norm_num : (102:ℚ) ≥ 100 + 2)]
    have hledger : (sell okCb "T" 102 (buy okCb "T" 100 Core.init 0)
          (some "TAKE_PROFIT_RULE_1") 1).trade_history
        = (buy okCb "T" 100 Core.init 0).trade_history
          ++ [⟨"T", none, none, Dir.sell, 102, some (102 - 100), 1, some 0,
              some "TAKE_PROFIT_RULE_1"⟩] := by
      unfold sell
      rw [if_neg (by decide : ¬ (("T" : String) = "")), hpos1]
      dsimp only
      rw [log_trade_result]
      rfl
    rw [hfire, hledger, List.getLast?_concat]
    rfl

/-- C10: in Rule #3, when long with threshold `n ≥ 1`, `last_price = some p`
and the current price exactly equal to `p`, the tick leaves `drop_count`
unchanged (neither incremented nor reset), updates `last_price` to the current
price, sells nothing and leaves the position and ledger untouched.  The
hypothesis `drop_count < n` is the reachability invariant proved in
`rule3_drop_count_invariant` (it is established by `buy`, which resets
`drop_count` to 0). -/
theorem rule3_flat_tick_keeps_streak (cb : Trade → Except String Unit)
    (key : String) (c : Core) (p : ℚ) (n : Int) (now : ℚ)
    (hpos : ¬ c.state.position = none)
    (hn : 1 ≤ n)
    (hlast : c.state.last_price = some p)
    (hcount : c.state.drop_count < n) :
    (maybe_consecutive_drops_sell cb key c p (some n) now).1.state.drop_count
      = c.state.drop_count ∧
    (maybe_consecutive_drops_sell cb key c p (some n) now).1.state.last_price
      = some p ∧
    (maybe_consecutive_drops_sell cb key c p (some n) now).2 = false ∧
    (maybe_consecutive_drops_sell cb key c p (some n) now).1.trade_history
      = c.trade_history ∧
    (maybe_consecutive_drops_sell cb key c p (some n) now).1.state.position
      = c.state.position := by
  have hres : maybe_consecutive_drops_sell cb key c p (some n) now
      = ({ c with state := { c.state with
            drop_count := c.state.drop_count
            last_price := some p } }, false) := by
    unfold maybe_consecutive_drops_sell
    rw [if_neg hpos, if_neg (by omega : ¬ (n ≤ 0)), hlast]
    simp only [lt_self_iff_false, if_false, gt_iff_lt, ge_iff_le]
    rw [if_neg (not_le.mpr hcount)]
  rw [hres]
  exact ⟨rfl, rfl, rfl, rfl, rfl⟩

/-- Reachability invariant supporting `rule3_flat_tick_keeps_streak`: under a
fixed threshold `n ≥ 1`, if `drop_count < n` whenever the key is long, one
call of Rule #3 preserves this (a call that reaches `n` sells and resets the
counter to 0; `buy` establishes it by setting `drop_count := 0`). -/
theorem rule3_drop_count_invariant (cb : Trade → Except String Unit)
    (key : String) (c : Core) (cp : ℚ) (n : Int) (now : ℚ) (hn : 1 ≤ n)
    (h : ¬ c.state.position = none → c.state.drop_count < n) :
    ¬ (maybe_consecutive_drops_sell cb key c cp (some n) now).1.state.position = none →
    (maybe_consecutive_drops_sell cb key c cp (some n) now).1.state.drop_count < n := by
  unfold maybe_consecutive_drops_sell
  by_cases hpos : c.state.position = none
  · rw [if_pos hpos]
    exact fun h2 => h h2
  · rw [if_neg hpos]
    dsimp only
    rw [if_neg (by omega : ¬ (n ≤ 0))]
    cases hlast : c.state.last_price with
    | none =>
      dsimp only
      intro _
      exact h hpos
    | some lp =>
      dsimp only
      by_cases hsell : (if cp < lp then c.state.drop_count + 1
          else if cp > lp then 0 else c.state.drop_count) ≥ n
      · rw [if_pos hsell]
        intro _
        show (0 : Int) < n
        omega
      · rw [if_neg hsell]
        intro _
        exact not_le.mp hsell

/-- `buy` establishes the Rule #3 counter invariant: after any buy the counter
is 0. -/
theorem buy_resets_drop_count (cb : Trade → Except String Unit) (key : String)
    (price : ℚ) (c : Core) (now : ℚ) (hk : key ≠ "") :
    (buy cb key price c now).state.drop_count = 0 := by
  unfold buy
  rw [if_neg hk, log_trade_result]

/-- C10 witness at a concrete long state with `drop_count = 1 < 3` and a flat
tick at the current `last_price` 99. -/
theorem rule3_flat_tick_keeps_streak_witness :
    (maybe_consecutive_drops_sell okCb "T"
      { state := { position := some ⟨100, "T", 0, some 0⟩,
                   last_price := some 99, drop_count := 1 },
        trade_history := [] } 99 (some 3) 5).1.state.drop_count
      = ({ state := { position := some ⟨100, "T", 0, some 0⟩,
                      last_price := some 99, drop_count := 1 },
           trade_history := [] } : Core).state.drop_count ∧
    (maybe_consecutive_drops_sell okCb "T"
      { state := { position := some ⟨100, "T", 0, some 0⟩,
                   last_price := some 99, drop_count := 1 },
        trade_history := [] } 99 (some 3) 5).1.state.last_price = some 99 ∧
    (maybe_consecutive_drops_sell okCb "T"
      { state := { position := some ⟨100, "T", 0, some 0⟩,
                   last_price := some 99, drop_count := 1 },
        trade_history := [] } 99 (some 3) 5).2 = false ∧
    (maybe_consecutive_drops_sell okCb "T"
      { state := { position := some ⟨100, "T", 0, some 0⟩,
                   last_price := some 99, drop_count := 1 },
        trade_history := [] } 99 (some 3) 5).1.trade_history = [] ∧
    (maybe_consecutive_drops_sell okCb "T"
      { state := { position := some ⟨100, "T", 0, some 0⟩,
                   last_price := some 99, drop_count := 1 },
        trade_history := [] } 99 (some 3) 5).1.state.position
      = some ⟨100, "T", 0, some 0⟩ :=
  rule3_flat_tick_keeps_streak okCb "T"
    { state := { position := some ⟨100, "T", 0, some 0⟩,
                 last_price := some 99, drop_count := 1 },
      trade_history := [] } 99 3 5
    (by decide) (by decide) (by decide) (by decide)

/-- C8 witness: the sell-record part of `rule1_take_profit_exact` applied at
the concrete scenario inputs (buy at 100, take-profit 2, signal at 102). -/
theorem rule1_take_profit_exact_witness :
    ∃ rec pos,
      (buy okCb "T" 100 Core.init 0).state.position = some pos ∧
      (maybe_take_profit_sell okCb "T" (buy okCb "T" 100 Core.init 0)
        102 (some 2) 1).1.trade_history
        = (buy okCb "T" 100 Core.init 0).trade_history ++ [rec] ∧
      rec.direction = Dir.sell ∧ rec.price = 102 ∧
      rec.win_reason = some "TAKE_PROFIT_RULE_1" ∧
      rec.profit = some (102 - pos.entry) :=
  rule1_take_profit_exact.2.1 okCb "T" (buy okCb "T" 100 Core.init 0)
    102 (some 2) 1 (by decide) rule1_take_profit_exact.2.2.2.2.1

/-- C5 counterexample: `TradingCore.buy` issued while the key already holds a
position is NOT a no-op — at this concrete input it appends a buy trade record
and overwrites `state.position` (the source `buy` has no flatness check). -/
theorem buy_while_long_appends :
    (buy okCb "T" 5
      { state := { position := some ⟨100, "T", 0, some 0⟩ }, trade_history := [] }
      7).trade_history.length = 1 ∧
    (buy okCb "T" 5
      { state := { position := some ⟨100, "T", 0, some 0⟩ }, trade_history := [] }
      7).state.position = some ⟨5, "T", 7, some 7⟩ := by
  constructor
  · rw [show (buy okCb "T" 5
      { state := { position := some ⟨100, "T", 0, some 0⟩ }, trade_history := [] }
      7) = _ from rfl]
    rfl
  · rfl

/-- C5 amended: a sell issued when the key has no open position is a no-op
(changes no field, appends nothing, raises no error); a buy issued while the
key already holds a position is, however, not a no-op at the `TradingCore.buy`
level — it unconditionally overwrites the position and appends a buy record
(engine call sites guard every buy with a flatness check instead). -/
theorem sell_flat_noop_buy_overwrites :
    (∀ cb key price c w now, c.state.position = none →
      sell cb key price c w now = c) ∧
    (∀ cb key price c now, key ≠ "" →
      (buy cb key price c now).state.position
        = some { entry := price, ticker := orKey c.state.ticker key,
                 ts := now, trade_id := some now } ∧
      (buy cb key price c now).trade_history.length
        = c.trade_history.length + 1 ∧
      (buy cb key price c now).state.trade_history.length
        = c.state.trade_history.length + 1) := by
  constructor
  · intro cb key price c w now hflat
    unfold sell
    by_cases hk : key = ""
    · rw [if_pos hk]
    · rw [if_neg hk, hflat]
  · intro cb key price c now hk
    unfold buy
    rw [if_neg hk, log_trade_result]
    refine ⟨rfl, ?_, ?_⟩
    · simp
    · simp

/-- C5 witness: the amended statement applied at concrete inputs — a sell on a
fresh (flat) state is the identity, and a buy on a long state overwrites. -/
theorem sell_flat_noop_buy_overwrites_witness :
    sell okCb "T" 42 Core.init none 3 = Core.init ∧
    (buy okCb "T" 5
      { state := { position := some ⟨100, "T", 0, some 0⟩ }, trade_history := [] }
      7).state.position = some { entry := 5, ticker := "T", ts := 7, trade_id := some 7 } :=
  ⟨sell_flat_noop_buy_overwrites.1 okCb "T" 42 Core.init none 3 rfl,
   (sell_flat_noop_buy_overwrites.2 okCb "T" 5
      { state := { position := some ⟨100, "T", 0, some 0⟩ }, trade_history := [] }
      7 (by decide)).1⟩

/-- C9: a persistence-callback exception is caught and ignored —
`_log_trade` with a callback that raises returns exactly the same core as with
a succeeding callback, and the record remains appended to both the per-key
history and the global ledger; `buy` and `sell` results never depend on the
callback at all. -/
theorem callback_error_ignored :
    (∀ cb key c d pr prof w tid now e,
      cb (mkTrade key c.state d pr prof w tid now) = Except.error e →
      log_trade cb key c d pr prof w tid now
        = log_trade okCb key c d pr prof w tid now ∧
      (log_trade cb key c d pr prof w tid now).trade_history
        = c.trade_history ++ [mkTrade key c.state d pr prof w tid now] ∧
      (log_trade cb key c d pr prof w tid now).state.trade_history
        = c.state.trade_history ++ [mkTrade key c.state d pr prof w tid now]) ∧
    (∀ cb cb2 key price c now, buy cb key price c now = buy cb2 key price c now) ∧
    (∀ cb cb2 key price c w now,
      sell cb key price c w now = sell cb2 key price c w now) := by
  refine ⟨?_, ?_, ?_⟩
  · intro cb key c d pr prof w tid now e _
    rw [log_trade_result, log_trade_result]
    exact ⟨rfl, rfl, rfl⟩
  · intro cb cb2 key price c now
    unfold buy
    by_cases hk : key = ""
    · rw [if_pos hk, if_pos hk]
    · rw [if_neg hk, if_neg hk, log_trade_result, log_trade_result]
  · intro cb cb2 key price c w now
    unfold sell
    by_cases hk : key = ""
    · rw [if_pos hk, if_pos hk]
    · rw [if_neg hk, if_neg hk]
      cases hp : c.state.position with
      | none => rfl
      | some pos =>
        dsimp only
        rw [log_trade_result, log_trade_result]

/-- C9 witness: a callback that always raises, at a concrete trade. -/
theorem callback_error_ignored_witness :
    log_trade (fun _ => Except.error "db down") "T" Core.init Dir.buy 100 none
      none (some 0) 0
      = log_trade okCb "T" Core.init Dir.buy 100 none none (some 0) 0 ∧
    (log_trade (fun _ => Except.error "db down") "T" Core.init Dir.buy 100 none
      none (some 0) 0).trade_history
      = Core.init.trade_history
        ++ [mkTrade "T" Core.init.state Dir.buy 100 none none (some 0) 0] ∧
    (log_trade (fun _ => Except.error "db down") "T" Core.init Dir.buy 100 none
      none (some 0) 0).state.trade_history
      = Core.init.state.trade_history
        ++ [mkTrade "T" Core.init.state Dir.buy 100 none none (some 0) 0] :=
  callback_error_ignored.1 (fun _ => Except.error "db down") "T" Core.init
    Dir.buy 100 none none (some 0) 0 "db down" rfl

/-- A non-empty-key `buy` appends exactly one buy record and opens the
position at the given price. -/
theorem buy_appends (cb : Trade → Except String Unit) (key : String) (price : ℚ)
    (c : Core) (now : ℚ) (hk : key ≠ "") :
    ∃ b, (buy cb key price c now).trade_history = c.trade_history ++ [b] ∧
      (buy cb key price c now).state.trade_history
        = c.state.trade_history ++ [b] ∧
      b.direction = Dir.buy ∧ b.price = price ∧ b.profit = none ∧
      (buy cb key price c now).state.position
        = some ⟨price, orKey c.state.ticker key, now, some now⟩ := by
  unfold buy
  rw [if_neg hk, log_trade_result]
  exact ⟨_, rfl, rfl, rfl, rfl, rfl, rfl⟩

/-- A non-empty-key `sell` on an open position appends exactly one sell record
with profit `price − entry` and closes the position. -/
theorem sell_appends (cb : Trade → Except String Unit) (key : String) (price : ℚ)
    (c : Core) (w : Option String) (now : ℚ) (pos : Pos) (hk : key ≠ "")
    (hp : c.state.position = some pos) :
    ∃ s2, (sell cb key price c w now).trade_history = c.trade_history ++ [s2] ∧
      (sell cb key price c w now).state.trade_history
        = c.state.trade_history ++ [s2] ∧
      s2.direction = Dir.sell ∧ s2.price = price ∧
      s2.profit = some (price - pos.entry) ∧ s2.win_reason = w ∧
      (sell cb key price c w now).state.position = none := by
  unfold sell
  rw [if_neg hk, hp]
  dsimp only
  rw [log_trade_result]
  exact ⟨_, rfl, rfl, rfl, rfl, rfl, rfl, rfl⟩

/-- `TradingCore.buy` does not touch the Rule #5 scalp flag. -/
theorem buy_keeps_scalp_flag (cb : Trade → Except String Unit) (key : String)
    (price : ℚ) (c : Core) (now : ℚ) :
    (buy cb key price c now).state.rule5_scalp_active
      = c.state.rule5_scalp_active := by
  unfold buy
  by_cases hk : key = ""
  · rw [if_pos hk]
  · rw [if_neg hk, log_trade_result]

/-- `TradingCore.sell` does not touch the Rule #5 scalp flag. -/
theorem sell_keeps_scalp_flag (cb : Trade → Except String Unit) (key : String)
    (price : ℚ) (c : Core) (w : Option String) (now : ℚ) :
    (sell cb key price c w now).state.rule5_scalp_active
      = c.state.rule5_scalp_active := by
  unfold sell
  by_cases hk : key = ""
  · rw [if_pos hk]
  · rw [if_neg hk]
    cases hp : c.state.position with
    | none => rfl
    | some pos =>
      dsimp only
      rw [log_trade_result]

/-- C4: while Rule #5 is in scalp mode with an up trend and a flat key, the
rule buys at the current price and immediately sells at
`current price + scalp_amount` tagged `RULE_5`, so the recorded profit of the
scalp cycle is exactly `scalp_amount` (and the rule stays in scalp mode,
ending flat); any non-up tick while scalping exits scalp mode without trading.
`scalp_amount` here is the normalised parameter
`max (pyRatOr sa (1/4)) (1/100)` of rules.py. -/
theorem rule5_scalp_cycle :
    (∀ cb key c trend cp dm ra sa now, key ≠ "" →
      c.state.rule5_reversal_active = false →
      c.state.rule5_scalp_active = true →
      pyLower trend = "up" →
      c.state.position = none →
      (maybe_rule5_trade cb key c trend cp dm ra sa now).2 = true ∧
      (∃ b s2,
        (maybe_rule5_trade cb key c trend cp dm ra sa now).1.trade_history
          = c.trade_history ++ [b, s2] ∧
        b.direction = Dir.buy ∧ b.price = cp ∧ b.profit = none ∧
        s2.direction = Dir.sell ∧
        s2.price = cp + max (pyRatOr sa (1/4)) (1/100) ∧
        s2.profit = some (max (pyRatOr sa (1/4)) (1/100)) ∧
        s2.win_reason = some "RULE_5") ∧
      (maybe_rule5_trade cb key c trend cp dm ra sa now).1.state.position = none ∧
      (maybe_rule5_trade cb key c trend cp dm ra sa now).1.state.rule5_scalp_active
        = true) ∧
    (∀ cb key c trend cp dm ra sa now,
      c.state.rule5_reversal_active = false →
      c.state.rule5_scalp_active = true →
      pyLower trend ≠ "up" →
      (maybe_rule5_trade cb key c trend cp dm ra sa now).1.state.rule5_scalp_active
        = false ∧
      (maybe_rule5_trade cb key c trend cp dm ra sa now).1.trade_history
        = c.trade_history ∧
      (maybe_rule5_trade cb key c trend cp dm ra sa now).1.state.position
        = c.state.position) := by
  constructor
  · intro cb key c trend cp dm ra sa now hk hrev hscalp hup hflat
    have hres : maybe_rule5_trade cb key c trend cp dm ra sa now
        = (sell cb key (cp + max (pyRatOr sa (1/4)) (1/100))
            (buy cb key cp c now) (some "RULE_5") now, true) := by
      unfold maybe_rule5_trade
      simp only [hrev, hscalp, hup, hflat, Bool.false_eq_true, if_false,
        if_true, ne_eq, not_true_eq_false, if_pos rfl]
    obtain ⟨b, hb1, hb2, hbdir, hbprice, hbprof, hbpos⟩ :=
      buy_appends cb key cp c now hk
    obtain ⟨s2, hs1, hs2, hsdir, hsprice, hsprof, hswin, hspos⟩ :=
      sell_appends cb key (cp + max (pyRatOr sa (1/4)) (1/100))
        (buy cb key cp c now) (some "RULE_5") now
        ⟨cp, orKey c.state.ticker key, now, some now⟩ hk hbpos
    refine ⟨by rw [hres], ⟨b, s2, ?_, hbdir, hbprice, hbprof, hsdir, hsprice, ?_, hswin⟩,
      ?_, ?_⟩
    · rw [hres]
      dsimp only
      rw [hs1, hb1, List.append_assoc]
      rfl
    · rw [hsprof]
      dsimp only
      rw [add_sub_cancel_left]
    · rw [hres]
      exact hspos
    · rw [hres]
      dsimp only
      rw [sell_keeps_scalp_flag, buy_keeps_scalp_flag]
      exact hscalp
  · intro cb key c trend cp dm ra sa now hrev hscalp hup
    unfold maybe_rule5_trade
    simp only [hrev, hscalp, Bool.false_eq_true, if_false, if_true,
      if_pos hup, hup, and_false]
    split
    · split
      · exact ⟨rfl, rfl, rfl⟩
      · split
        · exact ⟨rfl, rfl, rfl⟩
        · exact ⟨rfl, rfl, rfl⟩
    · split
      · exact ⟨rfl, rfl, rfl⟩
      · exact ⟨rfl, rfl, rfl⟩

/-- C4 witness: one concrete scalp cycle (scalp mode, up tick, flat key). -/
theorem rule5_scalp_cycle_witness :
    (maybe_rule5_trade okCb "T"
      { state := { rule5_scalp_active := true }, trade_history := [] }
      "up" 100 none none none 0).2 = true :=
  (rule5_scalp_cycle.1 okCb "T"
    { state := { rule5_scalp_active := true }, trade_history := [] }
    "up" 100 none none none 0 (by decide) rfl rfl (by decide) rfl).1

theorem upStreak_start (sigs : List (ℚ × String × ℚ)) (s : ℚ × String × ℚ)
    (hs : pyLower s.2.1 = "up") : UpStreak (sigs ++ [s]) s.1 := by
  refine ⟨sigs, [s], rfl, by simp, ?_, by simp⟩
  intro x hx
  rw [List.mem_singleton.mp hx]
  exact hs

theorem upStreak_extend (sigs : List (ℚ × String × ℚ)) (s : ℚ × String × ℚ)
    (t0 : ℚ) (hs : pyLower s.2.1 = "up") (h : UpStreak sigs t0) :
    UpStreak (sigs ++ [s]) t0 := by
  obtain ⟨pre, suf, rfl, hne, hall, hhead⟩ := h
  refine ⟨pre, suf ++ [s], by rw [List.append_assoc], by simp, ?_, ?_⟩
  · intro x hx
    rcases List.mem_append.mp hx with hx1 | hx2
    · exact hall x hx1
    · rw [List.mem_singleton.mp hx2]
      exact hs
  · cases suf with
    | nil => exact absurd rfl hne
    | cons a rest => simpa using hhead

theorem buy_opens_position (cb : Trade → Except String Unit) (key : String)
    (price : ℚ) (c : Core) (now : ℚ) (hk : key ≠ "") :
    ¬ (buy cb key price c now).state.position = none := by
  obtain ⟨b, hb1, hb2, hbdir, hbprice, hbprof, hbpos⟩ :=
    buy_appends cb key price c now hk
  rw [hbpos]
  simp

theorem r7step_inv (cb : Trade → Except String Unit) (key : String)
    (upm : Option Int) (hk : key ≠ "") (sigs : List (ℚ × String × ℚ))
    (s : ℚ × String × ℚ) (c : Core) (h : R7Inv sigs c) :
    R7Inv (sigs ++ [s]) (r7step cb key upm c s) := by
  rcases h with ⟨hact, hpos, hready, hstreak⟩ | ⟨hact, hpos⟩
  · unfold r7step maybe_rule7_trade
    rw [if_neg (by simp [hact]), if_neg (by simp [hact])]
    by_cases htr : pyLower s.2.1 = "up"
    · rw [if_neg (fun hne => hne htr)]
      cases hup : c.state.rule7_up_start with
      | none =>
        dsimp only
        rw [if_neg (by simp [hready])]
        left
        refine ⟨hact, hpos, hready, ?_⟩
        intro t0 ht0
        have : s.1 = t0 := by
          simpa using ht0
        rw [← this]
        exact upStreak_start sigs s htr
      | some t0 =>
        dsimp only
        by_cases helap : s.1 - t0 ≥ ((max (pyIntOr upm 30) 1 : Int) : ℚ)
        · rw [if_pos helap]
          rw [if_pos ⟨rfl, hpos⟩]
          right
          exact ⟨rfl, buy_opens_position cb key s.2.2 _ s.1 hk⟩
        · rw [if_neg helap]
          rw [if_neg (by simp [hready])]
          left
          refine ⟨hact, hpos, hready, ?_⟩
          intro t1 ht1
          rw [hup] at ht1
          injection ht1 with ht1
          rw [← ht1]
          exact upStreak_extend sigs s t0 htr (hstreak t0 hup)
    · rw [if_pos htr]
      left
      exact ⟨hact, hpos, rfl, fun t0 ht0 => by simp at ht0⟩
  · unfold r7step maybe_rule7_trade
    rw [if_pos ⟨hact, hpos⟩]
    right
    exact ⟨hact, hpos⟩

theorem r7run_inv (cb : Trade → Except String Unit) (key : String)
    (upm : Option Int) (hk : key ≠ "") (sigs : List (ℚ × String × ℚ))
    (c0 : Core) (h0 : r7Idle c0) : R7Inv sigs (r7run cb key upm sigs c0) := by
  induction sigs using List.reverseRecOn with
  | nil =>
    left
    refine ⟨h0.1, h0.2.1, h0.2.2.1, fun t0 ht0 => ?_⟩
    rw [show r7run cb key upm [] c0 = c0 from rfl, h0.2.2.2] at ht0
    cases ht0
  | append_singleton rest s ih =>
    have hstep : r7run cb key upm (rest ++ [s]) c0
        = r7step cb key upm (r7run cb key upm rest c0) s := by
      unfold r7run
      rw [List.foldl_append]
      rfl
    rw [hstep]
    exact r7step_inv cb key upm hk rest s _ ih

theorem r7step_fired (cb : Trade → Except String Unit) (key : String)
    (upm : Option Int) (sigs : List (ℚ × String × ℚ)) (s : ℚ × String × ℚ)
    (c : Core) (hinv : R7Inv sigs c)
    (hgrow : ¬ (r7step cb key upm c s).trade_history = c.trade_history) :
    pyLower s.2.1 = "up" ∧ c.state.position = none ∧
    ∃ t0, c.state.rule7_up_start = some t0 ∧
      s.1 - t0 ≥ ((max (pyIntOr upm 30) 1 : Int) : ℚ) ∧ UpStreak sigs t0 := by
  rcases hinv with ⟨hact, hpos, hready, hstreak⟩ | ⟨hact, hpos⟩
  · by_cases htr : pyLower s.2.1 = "up"
    · cases hup : c.state.rule7_up_start with
      | none =>
        exfalso
        apply hgrow
        unfold r7step maybe_rule7_trade
        rw [if_neg (by simp [hact]), if_neg (by simp [hact]),
          if_neg (fun hne => hne htr), hup]
        dsimp only
        rw [if_neg (by simp [hready])]
      | some t0 =>
        by_cases helap : s.1 - t0 ≥ ((max (pyIntOr upm 30) 1 : Int) : ℚ)
        · exact ⟨htr, hpos, t0, rfl, helap, hstreak t0 hup⟩
        · exfalso
          apply hgrow
          unfold r7step maybe_rule7_trade
          rw [if_neg (by simp [hact]), if_neg (by simp [hact]),
            if_neg (fun hne => hne htr), hup]
          dsimp only
          rw [if_neg helap, if_neg (by simp [hready])]
    · exfalso
      apply hgrow
      unfold r7step maybe_rule7_trade
      rw [if_neg (by simp [hact]), if_neg (by simp [hact]), if_pos htr]
  · exfalso
    apply hgrow
    unfold r7step maybe_rule7_trade
    rw [if_pos ⟨hact, hpos⟩]

/-- C3: in `maybe_rule7_trade` (rules.py), any signal whose trend is not `up`
resets both the uptrend timer `rule7_up_start` and `rule7_ready_for_buy` to
`None`/`False` (strict reset, no partial credit; the only excluded branch is
the rule7-active-while-long early return, which touches nothing), and the
threshold is interpreted in SECONDS even though the parameter is named
`up_minutes`: starting from an idle state, whenever a Rule #7 buy fires while
processing signal `s = (now, trend, price)`, the trend is `up`, the key was
flat, and the timer start `t0` satisfies `now − t0 ≥ max(up_minutes, 1)`
(seconds) with every processed signal since `t0` being an uninterrupted `up`
streak. -/
theorem rule7_strict_reset_and_seconds :
    (∀ cb key c trend cp upm now,
      ¬ (c.state.rule7_active = true ∧ ¬ c.state.position = none) →
      pyLower trend ≠ "up" →
      (maybe_rule7_trade cb key c trend cp upm now).1.state.rule7_up_start
        = none ∧
      (maybe_rule7_trade cb key c trend cp upm now).1.state.rule7_ready_for_buy
        = false ∧
      (maybe_rule7_trade cb key c trend cp upm now).1.trade_history
        = c.trade_history) ∧
    (∀ cb key upm sigs s c0, key ≠ "" → r7Idle c0 →
      ¬ (r7step cb key upm (r7run cb key upm sigs c0) s).trade_history
          = (r7run cb key upm sigs c0).trade_history →
      pyLower s.2.1 = "up" ∧
      (r7run cb key upm sigs c0).state.position = none ∧
      ∃ t0, (r7run cb key upm sigs c0).state.rule7_up_start = some t0 ∧
        s.1 - t0 ≥ ((max (pyIntOr upm 30) 1 : Int) : ℚ) ∧ UpStreak sigs t0) := by
  constructor
  · intro cb key c trend cp upm now hna htr
    unfold maybe_rule7_trade
    rw [if_neg hna]
    by_cases h2 : c.state.rule7_active = true ∧ c.state.position = none
    · rw [if_pos h2]
      exact ⟨rfl, rfl, rfl⟩
    · rw [if_neg h2, if_pos htr]
      exact ⟨rfl, rfl, rfl⟩
  · intro cb key upm sigs s c0 hk h0 hgrow
    exact r7step_fired cb key upm sigs s _ (r7run_inv cb key upm hk sigs c0 h0)
      hgrow

/-- C3 witness: the strict reset applied at a concrete armed state hit by a
`down` tick, and the seconds-threshold trace statement applied to the run
`up@t=0` then `up@t=2` with `up_minutes = 2`, where the buy fires. -/
theorem rule7_strict_reset_and_seconds_witness :
    ((maybe_rule7_trade okCb "T"
        { state := { rule7_up_start := some 3, rule7_ready_for_buy := true },
          trade_history := [] } "down" 50 none 10).1.state.rule7_up_start
        = none ∧
     (maybe_rule7_trade okCb "T"
        { state := { rule7_up_start := some 3, rule7_ready_for_buy := true },
          trade_history := [] } "down" 50 none 10).1.state.rule7_ready_for_buy
        = false ∧
     (maybe_rule7_trade okCb "T"
        { state := { rule7_up_start := some 3, rule7_ready_for_buy := true },
          trade_history := [] } "down" 50 none 10).1.trade_history = []) ∧
    (pyLower "up" = "up" ∧
     (r7run okCb "T" (some 2) [(0, "up", 100)] Core.init).state.position
       = none ∧
     ∃ t0, (r7run okCb "T" (some 2)
         [(0, "up", 100)] Core.init).state.rule7_up_start = some t0 ∧
       (2 : ℚ) - t0 ≥ ((max (pyIntOr (some 2) 30) 1 : Int) : ℚ) ∧
       UpStreak [(0, "up", 100)] t0) :=
  ⟨rule7_strict_reset_and_seconds.1 okCb "T"
    { state := { rule7_up_start := some 3, rule7_ready_for_buy := true },
      trade_history := [] } "down" 50 none 10 (by decide) (by decide),
   rule7_strict_reset_and_seconds.2 okCb "T" (some 2) [(0, "up", 100)]
    (2, "up", 101) Core.init (by decide) ⟨rfl, rfl, rfl, rfl⟩ (by
      have h1 : r7run okCb "T" (some 2) [(0, "up", 100)] Core.init
          = { state := { rule7_up_start := some 0 }, trade_history := [] } := rfl
      rw [h1]
      have helap : ((2, "up", (101:ℚ)).1 : ℚ) - 0
          ≥ ((max (pyIntOr (some 2) 30) 1 : Int) : ℚ) := by
        show (2:ℚ) - 0 ≥ ((2 : Int) : ℚ)
        norm_num
      unfold r7step maybe_rule7_trade
      rw [if_neg (by decide), if_neg (by decide), if_neg (by decide)]
      dsimp only
      rw [if_pos helap, if_pos ⟨rfl, rfl⟩]
      decide)⟩

/-- C7: when the price fails to parse or the normalised ticker is empty,
`on_signal` returns the current summary and leaves the whole simulator state
(every ticker dict and the global ledger) unchanged, and repeating such a call
any number of times never mutates anything.  The dispatcher is total — the
embedding returns a state for every input, never an error. -/
theorem on_signal_unparsable_noop (cb : STrade → Except String Unit)
    (clk : Clock) (a : OnSignalArgs) (sim : Sim)
    (h : parse_price a.price_str = none ∨ normalize_ticker a.ticker = "") :
    on_signal cb clk a sim = sim ∧
    ∀ n, (fun s => on_signal cb clk a s)^[n] sim = sim := by
  have h1 : on_signal cb clk a sim = sim := by
    unfold on_signal
    rcases h with hp | ht
    · rw [hp]
    · cases hpp : parse_price a.price_str with
      | none => rfl
      | some p =>
        dsimp only
        rw [if_pos ht]
  refine ⟨h1, ?_⟩
  intro n
  induction n with
  | zero => rfl
  | succ k ih => simp only [Function.iterate_succ_apply, h1, ih]

/-- C7 witness: an unparsable price (`"abc"`) at a concrete state, repeated
three times. -/
theorem on_signal_unparsable_noop_witness :
    on_signal (fun _ => Except.ok ()) ⟨0, 600, 0⟩
      { trend := "up", price_str := some "abc", ticker := "AAPL" }
      { tickers := [], trade_history := [] }
      = { tickers := [], trade_history := [] } ∧
    (fun s => on_signal (fun _ => Except.ok ()) ⟨0, 600, 0⟩
      { trend := "up", price_str := some "abc", ticker := "AAPL" } s)^[3]
      { tickers := [], trade_history := [] }
      = { tickers := [], trade_history := [] } :=
  have h := on_signal_unparsable_noop (fun _ => Except.ok ()) ⟨0, 600, 0⟩
    { trend := "up", price_str := some "abc", ticker := "AAPL" }
    { tickers := [], trade_history := [] } (Or.inl (by decide))
  ⟨h.1, h.2 3⟩
